import Mathlib

/-!
Verification of the interact-hackathons admin dashboard logic.

This file gives a shallow embedding of the two logic-bearing components of
the repository:

* the paginated, filterable teams-list fetcher of the admin live page
  (the `fetchTeams` response handler, the query-string construction, and the
  filter-change reset effect), and
* the GitHub repository link manager (URL-list validation gating the submit
  button, and deletion of a linked repository).

Network calls themselves are not modelled; what is embedded is the pure
response-handling logic: a fetch becomes a function from the pre-fetch
component state and the received response to the post-fetch component state
plus the toast notifications emitted.  Component state is the tuple of the
React `useState` cells the handlers read and write.
-/

namespace Hackathons

/-- A hackathon team as held by the dashboard.  Only the fields the embedded
logic can observe are kept; none of the list-management code inspects them,
so they serve purely as payload. -/
structure HackathonTeam where
  id : String
  title : String
  isEliminated : Bool
  roundScore : Int
deriving DecidableEq

/-- A toast notification emitted through the `Toaster` side channel. -/
inductive Toast where
  | success (msg : String)
  | error (msg : String)
deriving DecidableEq

/-- Modelled from the spec: the generic failure message constant.  It lives in
`config/errors`, outside the provided sources; the spec only requires that a
non-success response without a server message surfaces "a generic failure
message".  Its concrete text is irrelevant to every claim. -/
def SERVER_ERROR : String := "Something went wrong. Please try again later."

/-- The `useState` cells of the admin live page that the teams-list fetcher
reads and writes: the held list, the page counter, the has-more flag and the
loading flag. -/
structure TeamsState where
  teams : List HackathonTeam
  page : Nat
  hasMore : Bool
  loading : Bool
deriving DecidableEq

/-- The shape of a response to the teams-list GET: a status code, the
optional `data.teams` payload and the optional `data.message` field. -/
structure FetchTeamsResponse where
  statusCode : Nat
  teams : Option (List HackathonTeam)
  message : Option String
deriving DecidableEq

/-- The response handler of `fetchTeams`.  `initialPage` is the optional
second argument of the source function (`some 1` at the filter-effect call
site, `none` at the infinite-scroll call site).  On a 200 response the branch
`initialPage == 1` replaces the held list, the other branch appends
`data.teams || []` and clears `hasMore` when the append produced no growth;
both branches then increment the page counter and clear the loading flag.
On any other status the state is untouched and an error toast carries the
server message when present, the generic message otherwise. -/
def fetchTeams (s : TeamsState) (initialPage : Option Nat)
    (res : FetchTeamsResponse) : TeamsState × List Toast :=
  if res.statusCode = 200 then
    if initialPage = some 1 then
      ({ s with teams := res.teams.getD [], page := s.page + 1, loading := false }, [])
    else
      let addedTeams := s.teams ++ res.teams.getD []
      ({ s with teams := addedTeams,
                hasMore := if addedTeams.length = s.teams.length then false else s.hasMore,
                page := s.page + 1,
                loading := false }, [])
  else
    (s, [Toast.error (res.message.getD SERVER_ERROR)])

/-- The page number actually placed in the query string:
`initialPage ? initialPage : page`, with JavaScript truthiness making a zero
`initialPage` fall through to the page counter. -/
def requestedPage (s : TeamsState) (initialPage : Option Nat) : Nat :=
  match initialPage with
  | some n => if n ≠ 0 then n else s.page
  | none => s.page

/-- The post-fetch state of a successful (status 200) teams fetch whose
response carried the team list `resp`. -/
def fetchOk (s : TeamsState) (initialPage : Option Nat)
    (resp : List HackathonTeam) : TeamsState :=
  (fetchTeams s initialPage ⟨200, some resp, none⟩).1

/-- The component state right after the filter-change effect body ran:
`setPage(1)`, `setTeams([])`, `setHasMore(true)`, `setLoading(true)`, with
the page-1 fetch issued but not yet completed. -/
def resetApplied : TeamsState :=
  { teams := [], page := 1, hasMore := true, loading := true }

/-- The events that drive the teams-list state between renders.  Each fetch
is modelled atomically together with its response.  A filter change always
resets the state and issues an `initialPage = 1` fetch; an infinite-scroll
trigger calls `fetchTeams` with no arguments and is only fired by the
`InfiniteScroll` component while its `hasMore` prop is true. -/
inductive Evt where
  | resetOk (resp : List HackathonTeam)
  | resetFail
  | scrollOk (resp : List HackathonTeam)
  | scrollFail
deriving DecidableEq

/-- The labelled step relation on the teams-list state.  The two reset steps
first apply the filter-change effect body (`resetApplied`) and then run the
fetch with `initialPage = 1`; on failure the fetch leaves the reset state
untouched.  The two scroll steps are guarded by the `hasMore` flag, which is
exactly the `hasMore` prop handed to `InfiniteScroll`. -/
inductive Step : Evt → TeamsState → TeamsState → Prop
  | resetOk (s : TeamsState) (resp : List HackathonTeam) :
      Step (Evt.resetOk resp) s (fetchOk resetApplied (some 1) resp)
  | resetFail (s : TeamsState) :
      Step Evt.resetFail s resetApplied
  | scrollOk (s : TeamsState) (resp : List HackathonTeam) (h : s.hasMore = true) :
      Step (Evt.scrollOk resp) s (fetchOk s none resp)
  | scrollFail (s : TeamsState) (h : s.hasMore = true) :
      Step Evt.scrollFail s s

/-- States the admin live page can actually be in.  On mount the filter
effect fires before any scroll event can, so the reachable region is rooted
at `resetApplied` and closed under the step relation. -/
inductive Reach : TeamsState → Prop
  | init : Reach resetApplied
  | step {e : Evt} {s t : TeamsState} : Reach s → Step e s t → Reach t

/-- A sample team used to instantiate theorems at concrete inputs. -/
def sampleTeam : HackathonTeam :=
  { id := "team-1", title := "Team One", isEliminated := false, roundScore := 7 }

/-- The state after the mount reset and a successful first-page fetch that
returned a single team. -/
def afterFirstPage : TeamsState := fetchOk resetApplied (some 1) [sampleTeam]

/-- The state after a further scroll fetch returned no new teams: the
exhaustion check fires and clears the has-more flag. -/
def exhausted : TeamsState := fetchOk afterFirstPage none []

/-- Iterated scroll-triggered fetches: starting from `s`, each element of the
list is the team payload of one successful `fetchTeams()` call issued by the
`InfiniteScroll` component. -/
def scrollChain : TeamsState → List (List HackathonTeam) → TeamsState
  | s, [] => s
  | s, r :: rs => scrollChain (fetchOk s none r) rs

/-- The filter inputs of the teams list: the `useState` cells `search`,
`track`, `eliminated`, `overallScore` and `order` read by `fetchTeams` when
it builds the query string. -/
structure FilterState where
  search : String
  track : String
  eliminated : String
  overallScore : Int
  order : String
deriving DecidableEq

/-- The query-string part of the URL built by `fetchTeams`, transliterated
from the template literal in the source: the `page`, `limit=20` and `search`
parameters, the conditionally included `track_id`, `overall_score` and
`is_eliminated` parameters (each contributing the empty string when its
condition fails), and the `order` parameter.  `pageReq` is the page number
the call resolved (see `requestedPage`). -/
def teamsQueryString (f : FilterState) (pageReq : Nat) : String :=
  "page=" ++ toString pageReq ++ "&limit=" ++ toString (20 : Nat) ++ "&search=" ++ f.search ++
  (if f.track ≠ "" ∧ f.track ≠ "none" then "&track_id=" ++ f.track else "") ++
  (if f.overallScore ≠ 0 then "&overall_score=" ++ toString f.overallScore else "") ++
  (if f.eliminated ≠ "" ∧ f.eliminated ≠ "none" then
      "&is_eliminated=" ++ (if f.eliminated = "eliminated" then "true" else "false")
    else "") ++
  "&order=" ++ f.order

/-- The query parameters the specification prescribes, as a name-value list:
page number, page size fixed at 20, search text, then optionally `track_id`
(present iff the track filter is neither empty nor "none"), `overall_score`
(present iff the score floor is nonzero) and `is_eliminated` (present iff
the elimination filter is neither empty nor "none", mapped to "true" exactly
when it equals "eliminated"), and finally the sort order. -/
def specTeamsParams (f : FilterState) (pageReq : Nat) : List (String × String) :=
  [("page", toString pageReq), ("limit", "20"), ("search", f.search)] ++
  (if f.track ≠ "" ∧ f.track ≠ "none" then [("track_id", f.track)] else []) ++
  (if f.overallScore ≠ 0 then [("overall_score", toString f.overallScore)] else []) ++
  (if f.eliminated ≠ "" ∧ f.eliminated ≠ "none" then
      [("is_eliminated", if f.eliminated = "eliminated" then "true" else "false")] else []) ++
  [("order", f.order)]

/-- Renders the parameters after the first as `&name=value` segments. -/
def renderRest : List (String × String) → String
  | [] => ""
  | q :: qs => "&" ++ q.1 ++ "=" ++ q.2 ++ renderRest qs

/-- Renders a name-value parameter list as a query string. -/
def renderQuery : List (String × String) → String
  | [] => ""
  | p :: ps => p.1 ++ "=" ++ p.2 ++ renderRest ps

/-- A concrete filter state exercising all three optional parameters. -/
def sampleFilter : FilterState :=
  { search := "robo", track := "ai", eliminated := "eliminated",
    overallScore := 3, order := "latest" }

/-- A GitHub repository link as held by the repositories component. -/
structure GithubRepo where
  id : String
  repoName : String
  repoLink : String
deriving DecidableEq

/-- The shape of a response to the repository DELETE request. -/
structure DeleteResponse where
  statusCode : Nat
  message : Option String
deriving DecidableEq

/-- The response handler of `handleRepoDelete`: on a 200 response the held
list is filtered to the entries whose `id` differs from the deleted one and
a success toast is emitted; on any other status the list is untouched and an
error toast concatenates the fixed prefix with `res.data.message` (the
JavaScript string coercion renders a missing message as "undefined"). -/
def handleRepoDelete (githubRepos : List GithubRepo) (repo : String)
    (res : DeleteResponse) : List GithubRepo × List Toast :=
  if res.statusCode = 200 then
    (githubRepos.filter (fun r => r.id != repo),
      [Toast.success "Repository deleted successfully"])
  else
    (githubRepos,
      [Toast.error ("Failed to delete repository  " ++ res.message.getD "undefined")])

/-- A concrete held list with two entries sharing the identifier "dup". -/
def sampleRepos : List GithubRepo :=
  [{ id := "r1", repoName := "alpha", repoLink := "https://github.com/o/alpha" },
   { id := "dup", repoName := "beta", repoLink := "https://github.com/o/beta" },
   { id := "r2", repoName := "gamma", repoLink := "https://github.com/o/gamma" },
   { id := "dup", repoName := "delta", repoLink := "https://github.com/o/delta" }]

/-- Splits a character list at the first occurrence of the "://" scheme
separator, returning the characters before it and after it. -/
def splitScheme : List Char → Option (List Char × List Char)
  | [] => none
  | ':' :: '/' :: '/' :: rest => some ([], rest)
  | c :: cs =>
    match splitScheme cs with
    | some (scheme, rest) => some (c :: scheme, rest)
    | none => none

/-- Modelled from the spec: the URL syntax check.  The source delegates it to
the external validator library (not part of this repository); the spec
requires that an entry "parse as a syntactically valid absolute URL" and
gives the examples that "not-a-url" is rejected and
"https://github.com/org/repo" is accepted.  We model an absolute URL as a
nonempty scheme, the "://" separator, and a nonempty remainder; in
particular the empty string is not a valid URL. -/
def isURL (s : String) : Bool :=
  match splitScheme s.data with
  | some (scheme, rest) => !scheme.isEmpty && !rest.isEmpty
  | none => false

/-- The memoised validity flag of the repositories form: every entry of the
URL list, empty entries included, must pass the URL check. -/
def isValid (newRepos : List String) : Bool := newRepos.all (fun repo => isURL repo)

/-- Whether the submit button is rendered at all: the source guards it with
`newRepos && newRepos.length > 0`. -/
def submitShown (newRepos : List String) : Bool := decide (0 < newRepos.length)

/-- Whether the submit action can actually fire: the button must be rendered
and not carry `disabled={!isValid}`. -/
def submitEnabled (newRepos : List String) : Bool :=
  submitShown newRepos && isValid newRepos

/-- The two kinds of teams-list fetch the source issues: the fetch of the
filter-change effect, which carries the AbortController created by that
effect, and a scroll fetch, which `InfiniteScroll` triggers through
`next={fetchTeams}` with no arguments, so it runs with
`abortController === undefined` and no signal at all. -/
inductive FetchKind where
  | filterFetch
  | scrollFetch
deriving DecidableEq

/-- One issued fetch: its kind, the `teams` list captured by the closure of
the `fetchTeams` function of the render that issued it (the append branch of
a scroll fetch reads this captured list, not the current state), whether its
controller was aborted, and whether its response was already consumed. -/
structure FetchRec where
  kind : FetchKind
  closureTeams : List HackathonTeam
  aborted : Bool
  delivered : Bool
deriving DecidableEq

/-- State of the cancellation model: the held teams list, the record of
every fetch issued so far (fetch `i` is `fetches[i]?`), and the identifier
of the filter-effect fetch whose controller the current effect cleanup still
holds, if that fetch is outstanding. -/
structure ConcState where
  teams : List HackathonTeam
  fetches : List FetchRec
  pendingFilter : Option Nat
deriving DecidableEq

/-- Marks fetch `p` as aborted (a no-op when no such fetch exists). -/
def abortFetch (fs : List FetchRec) (p : Nat) : List FetchRec :=
  match fs[p]? with
  | some f => fs.set p { f with aborted := true }
  | none => fs

/-- The filter-change effect, as one atomic transition: React first runs the
cleanup of the previous effect, which aborts the controller of that effect,
cancelling its page-1 fetch when it is still pending — scroll fetches hold
no controller and stay live.  The new effect body then resets the held list
and issues a fresh page-1 fetch with a fresh controller. -/
def applyFilterChange (s : ConcState) : ConcState :=
  let fs := match s.pendingFilter with
    | some p => abortFetch s.fetches p
    | none => s.fetches
  { teams := [],
    fetches := fs ++ [⟨FetchKind.filterFetch, [], false, false⟩],
    pendingFilter := some fs.length }

/-- A scroll trigger: `InfiniteScroll` calls `fetchTeams()` with no
arguments, issuing a fetch without any abort signal whose handler closure
captures the currently held teams list. -/
def applyScrollIssue (s : ConcState) : ConcState :=
  { s with fetches := s.fetches ++ [⟨FetchKind.scrollFetch, s.teams, false, false⟩] }

/-- The network delivers the successful (status 200) response of fetch `id`
with payload `resp`.  If the controller of the fetch was aborted, the
promise inside `getHandler` rejects and the handler never runs, so the state
is untouched.  Otherwise the handler executes: a filter-effect fetch ran
with `initialPage = 1` and replaces the held list; a scroll fetch takes the
append branch and writes its captured closure list plus the payload.  A
response is consumed at most once. -/
def applyRespond (s : ConcState) (id : Nat) (resp : List HackathonTeam) : ConcState :=
  match s.fetches[id]? with
  | none => s
  | some f =>
    if f.delivered = true then s
    else
      let fs := s.fetches.set id { f with delivered := true }
      if f.aborted = true then { s with fetches := fs }
      else
        match f.kind with
        | FetchKind.filterFetch =>
          { teams := resp, fetches := fs,
            pendingFilter := if s.pendingFilter = some id then none else s.pendingFilter }
        | FetchKind.scrollFetch =>
          { s with teams := f.closureTeams ++ resp, fetches := fs }

/-- Events of the cancellation model: a filter change, a scroll trigger, or
the network delivering the response of fetch `id`. -/
inductive CEvt where
  | filterChange
  | scrollIssue
  | respond (id : Nat) (resp : List HackathonTeam)
deriving DecidableEq

/-- The step function of the cancellation model. -/
def cstep : CEvt → ConcState → ConcState
  | CEvt.filterChange, s => applyFilterChange s
  | CEvt.scrollIssue, s => applyScrollIssue s
  | CEvt.respond id resp, s => applyRespond s id resp

/-- The pre-mount state: nothing held, no fetch ever issued. -/
def cInit : ConcState := { teams := [], fetches := [], pendingFilter := none }

/-- Runs a sequence of events from the pre-mount state. -/
def runTrace (evts : List CEvt) : ConcState :=
  evts.foldl (fun s e => cstep e s) cInit

/-- States reachable in the cancellation model. -/
inductive CReach : ConcState → Prop
  | init : CReach cInit
  | step (e : CEvt) {s : ConcState} : CReach s → CReach (cstep e s)

/-- The cancellation property: every filter-effect fetch that was issued, is
no longer the one whose controller the current cleanup holds, and has not
delivered its response, was aborted.  Scroll fetches are deliberately not
covered: nothing ever cancels them. -/
def CancelInv (s : ConcState) : Prop :=
  ∀ id f, s.fetches[id]? = some f → f.kind = FetchKind.filterFetch →
    s.pendingFilter ≠ some id → f.delivered = false → f.aborted = true

/-- Concrete teams distinguishing the two filter combinations of the
counterexample trace. -/
def teamA : HackathonTeam :=
  { id := "team-a", title := "Alpha", isEliminated := false, roundScore := 1 }

/-- A team returned only by the second (newer) filter combination. -/
def teamB : HackathonTeam :=
  { id := "team-b", title := "Beta", isEliminated := false, roundScore := 2 }

/-- The payload of the stale scroll response. -/
def teamC : HackathonTeam :=
  { id := "team-c", title := "Gamma", isEliminated := true, roundScore := 3 }

/-- The refuting trace: mount filter effect (fetch 0), its response, a
scroll fetch (fetch 1) capturing `[teamA]`, a filter change while fetch 1 is
in flight (fetch 2), the response of the new filter combination, and finally
the stale response of the scroll fetch. -/
def staleTrace : List CEvt :=
  [CEvt.filterChange, CEvt.respond 0 [teamA], CEvt.scrollIssue,
   CEvt.filterChange, CEvt.respond 2 [teamB], CEvt.respond 1 [teamC]]

/-- The state after the mount filter effect and one further filter change:
filter fetch 0 was superseded by filter fetch 1 while still in flight. -/
def twoFilterChanges : ConcState := runTrace [CEvt.filterChange, CEvt.filterChange]


/-- A successful fetch increments the page counter, in both branches. -/
theorem fetchOk_page (s : TeamsState) (ip : Option Nat) (resp : List HackathonTeam) :
    (fetchOk s ip resp).page = s.page + 1 := by
  unfold fetchOk fetchTeams
  by_cases h : ip = some 1 <;> simp [h]

/-- A fetch issued with `initialPage = 1` replaces the held list. -/
theorem fetchOk_teams_one (s : TeamsState) (resp : List HackathonTeam) :
    (fetchOk s (some 1) resp).teams = resp := by
  simp [fetchOk, fetchTeams]

/-- A fetch issued with no `initialPage` appends the response. -/
theorem fetchOk_teams_none (s : TeamsState) (resp : List HackathonTeam) :
    (fetchOk s none resp).teams = s.teams ++ resp := by
  simp [fetchOk, fetchTeams]

/-- A fetch issued with `initialPage = 1` does not touch the has-more flag. -/
theorem fetchOk_hasMore_one (s : TeamsState) (resp : List HackathonTeam) :
    (fetchOk s (some 1) resp).hasMore = s.hasMore := by
  simp [fetchOk, fetchTeams]

/-- The has-more flag after an appending fetch: cleared exactly when the
append produced no growth. -/
theorem fetchOk_hasMore_none (s : TeamsState) (resp : List HackathonTeam) :
    (fetchOk s none resp).hasMore =
      if (s.teams ++ resp).length = s.teams.length then false else s.hasMore := by
  simp [fetchOk, fetchTeams]

/-- Reachability invariant: the page counter is at least 1, and whenever it
is exactly 1 the held list is empty (the counter is only ever set to 1 by the
filter reset, which also clears the list, and every completed fetch
increments it). -/
theorem reach_invariant {s : TeamsState} (h : Reach s) :
    1 ≤ s.page ∧ (s.page = 1 → s.teams = []) := by
  induction h with
  | init => exact ⟨Nat.le_refl 1, fun _ => rfl⟩
  | step hr hs ih =>
    cases hs with
    | resetOk s resp =>
      rw [fetchOk_page]
      refine ⟨by simp [resetApplied], fun hp => ?_⟩
      simp [resetApplied] at hp
    | resetFail s => exact ⟨Nat.le_refl 1, fun _ => rfl⟩
    | scrollOk s resp hm =>
      rw [fetchOk_page]
      exact ⟨Nat.le_succ_of_le ih.1, fun hp => absurd ih.1 (by omega)⟩
    | scrollFail s hm => exact ih

/-- The page counter grows by one per successful scroll fetch. -/
theorem scrollChain_page (rs : List (List HackathonTeam)) :
    ∀ s : TeamsState, (scrollChain s rs).page = s.page + rs.length := by
  induction rs with
  | nil => intro s; rfl
  | cons r rs ih =>
    intro s
    rw [scrollChain, ih, fetchOk_page]
    simp
    omega

/-- Merges two adjacent string literals of the rendered query. -/
theorem limit_search_merge (x : String) :
    "&limit=20" ++ ("&search=" ++ x) = "&limit=20&search=" ++ x := by
  rw [← String.append_assoc]; rfl

/-- C5: for every filter state and page number, the query string built by
`fetchTeams` is exactly the rendering of the parameter list the
specification prescribes: page, fixed page size 20, search text, sort order,
and the three conditionally present parameters with precisely the stated
presence conditions and value mapping. -/
theorem query_string_matches_spec_params (f : FilterState) (pageReq : Nat) :
    renderQuery (specTeamsParams f pageReq) = teamsQueryString f pageReq := by
  unfold specTeamsParams teamsQueryString
  by_cases h1 : f.track ≠ "" ∧ f.track ≠ "none" <;>
  by_cases h2 : f.overallScore ≠ 0 <;>
  by_cases h3 : f.eliminated ≠ "" ∧ f.eliminated ≠ "none" <;>
    simp [h1, h2, h3, renderQuery, renderRest, String.append_assoc, String.append_empty,
      show toString (20 : Nat) = "20" from rfl, limit_search_merge]

/-- C5 witness: the correspondence at a concrete filter state and page. -/
theorem query_string_witness :
    renderQuery (specTeamsParams sampleFilter 2) = teamsQueryString sampleFilter 2 :=
  query_string_matches_spec_params sampleFilter 2

/-- C1: on every reachable state, a successful fetch whose query requests
page 1 replaces the held list with exactly the returned items, and a
successful fetch requesting any later page appends the returned items to the
held list.  `ip` ranges over the two call shapes present in the source:
`fetchTeams(abortController, 1)` from the filter effect and `fetchTeams()`
from the infinite scroller. -/
theorem page_one_replaces_later_pages_append
    (s : TeamsState) (hs : Reach s) (ip : Option Nat) (resp : List HackathonTeam)
    (hip : ip = some 1 ∨ ip = none) :
    (requestedPage s ip = 1 → (fetchOk s ip resp).teams = resp) ∧
    (1 < requestedPage s ip → (fetchOk s ip resp).teams = s.teams ++ resp) := by
  rcases hip with h | h <;> subst h
  · refine ⟨fun _ => fetchOk_teams_one s resp, fun hgt => ?_⟩
    simp [requestedPage] at hgt
  · refine ⟨fun h1 => ?_, fun _ => fetchOk_teams_none s resp⟩
    have hempty := (reach_invariant hs).2 (by simpa [requestedPage] using h1)
    rw [fetchOk_teams_none, hempty]
    simp

/-- C1 witness: instantiated at the mount state with a page-1 fetch. -/
theorem page_one_replaces_witness :
    (fetchOk resetApplied (some 1) [sampleTeam]).teams = [sampleTeam] :=
  (page_one_replaces_later_pages_append resetApplied Reach.init (some 1) [sampleTeam]
    (Or.inl rfl)).1 rfl

/-- C3: appending a page whose combined length equals the pre-append length
clears the has-more flag; and from any state whose has-more flag is false,
the only steps that can fire are the filter-reset steps (the scroller never
requests a further page), and each of them sets the flag back to true. -/
theorem no_growth_exhausts_until_reset :
    (∀ (s : TeamsState) (resp : List HackathonTeam),
        (s.teams ++ resp).length = s.teams.length →
        (fetchOk s none resp).hasMore = false) ∧
    (∀ (e : Evt) (s t : TeamsState), s.hasMore = false → Step e s t →
        (e = Evt.resetFail ∨ (∃ r, e = Evt.resetOk r)) ∧ t.hasMore = true) := by
  constructor
  · intro s resp h
    rw [fetchOk_hasMore_none, if_pos h]
  · intro e s t hm hstep
    cases hstep with
    | resetOk s resp => exact ⟨Or.inr ⟨resp, rfl⟩, by rw [fetchOk_hasMore_one]; rfl⟩
    | resetFail s => exact ⟨Or.inl rfl, rfl⟩
    | scrollOk s resp h => rw [hm] at h; cases h
    | scrollFail s h => rw [hm] at h; cases h

/-- C3 witness: a no-growth append on a concrete state clears the flag, and
the filter-reset step from the resulting exhausted state restores it. -/
theorem no_growth_exhausts_witness :
    (fetchOk afterFirstPage none []).hasMore = false ∧
    ((Evt.resetFail = Evt.resetFail ∨ (∃ r, Evt.resetFail = Evt.resetOk r)) ∧
      resetApplied.hasMore = true) :=
  ⟨no_growth_exhausts_until_reset.1 afterFirstPage [] (by simp),
   no_growth_exhausts_until_reset.2 Evt.resetFail exhausted resetApplied rfl
     (Step.resetFail exhausted)⟩

/-- C9: a fetch issued with `initialPage = 1` never touches the has-more
flag (the exhaustion check lives only in the append branch); in particular a
successful first-page fetch returning zero teams leaves the flag true, and a
further scroll-triggered page request is still permitted from that state. -/
theorem first_page_never_exhausts :
    (∀ (s : TeamsState) (resp : List HackathonTeam),
        (fetchOk s (some 1) resp).hasMore = s.hasMore) ∧
    (fetchOk resetApplied (some 1) []).hasMore = true ∧
    Step (Evt.scrollOk [sampleTeam]) (fetchOk resetApplied (some 1) [])
      (fetchOk (fetchOk resetApplied (some 1) []) none [sampleTeam]) := by
  refine ⟨fetchOk_hasMore_one, by rw [fetchOk_hasMore_one]; rfl, ?_⟩
  exact Step.scrollOk _ _ (by rw [fetchOk_hasMore_one]; rfl)

/-- C9 witness: the has-more preservation at a concrete state. -/
theorem first_page_never_exhausts_witness :
    (fetchOk afterFirstPage (some 1) []).hasMore = afterFirstPage.hasMore :=
  first_page_never_exhausts.1 afterFirstPage []

/-- C10: every successful fetch increments the page counter by exactly one,
whatever page was requested; and after the filter reset (which sets the
counter to 1 and fetches page 1), the scroll fetch issued after `n` further
successful scroll fetches requests page `2 + n`, so successive scroll
requests ask for consecutive pages 2, 3, 4, ... -/
theorem success_increments_page_consecutively :
    (∀ (s : TeamsState) (ip : Option Nat) (resp : List HackathonTeam),
        (fetchOk s ip resp).page = s.page + 1) ∧
    (∀ (r0 : List HackathonTeam) (rs : List (List HackathonTeam)),
        requestedPage (scrollChain (fetchOk resetApplied (some 1) r0) rs) none
          = 2 + rs.length) := by
  refine ⟨fetchOk_page, fun r0 rs => ?_⟩
  show (scrollChain (fetchOk resetApplied (some 1) r0) rs).page = 2 + rs.length
  rw [scrollChain_page, fetchOk_page]
  simp [resetApplied]

/-- C10 witness: the page increment and the consecutive request numbers at
concrete inputs. -/
theorem success_increments_page_witness :
    (fetchOk afterFirstPage none []).page = afterFirstPage.page + 1 ∧
    requestedPage (scrollChain (fetchOk resetApplied (some 1) [sampleTeam])
      [[], [sampleTeam]]) none = 2 + 2 :=
  ⟨success_increments_page_consecutively.1 afterFirstPage none [],
   success_increments_page_consecutively.2 [sampleTeam] [[], [sampleTeam]]⟩

/-- C7: a teams-list fetch that receives a non-200 response emits exactly
one error toast, carrying the server-provided message when one is present
and the generic failure message otherwise, and leaves the whole component
state (held list, page counter, has-more flag, loading flag) unchanged. -/
theorem fetch_error_toasts_and_preserves_state
    (s : TeamsState) (ip : Option Nat) (res : FetchTeamsResponse)
    (h : res.statusCode ≠ 200) :
    (fetchTeams s ip res).1 = s ∧
    (fetchTeams s ip res).2 =
      [Toast.error (match res.message with | some m => m | none => SERVER_ERROR)] := by
  unfold fetchTeams
  rw [if_neg h]
  exact ⟨rfl, by cases res.message <;> rfl⟩

/-- C7 witness: a concrete 500 response with a server message. -/
theorem fetch_error_witness :
    (fetchTeams afterFirstPage none ⟨500, none, some "boom"⟩).1 = afterFirstPage ∧
    (fetchTeams afterFirstPage none ⟨500, none, some "boom"⟩).2 = [Toast.error "boom"] :=
  fetch_error_toasts_and_preserves_state afterFirstPage none ⟨500, none, some "boom"⟩
    (by decide)

/-- C4: a successful deletion removes exactly the held entries whose
identifier equals the given one: the resulting list is a subsequence of the
original (every surviving entry is an original entry, in its original
order), no surviving entry carries the deleted identifier, and every
original entry occurs in the result exactly as often as before unless it
carries the deleted identifier, in which case it disappears entirely. -/
theorem delete_removes_exactly_matching
    (githubRepos : List GithubRepo) (repo : String) (res : DeleteResponse)
    (h : res.statusCode = 200) :
    List.Sublist (handleRepoDelete githubRepos repo res).1 githubRepos ∧
    (∀ r ∈ (handleRepoDelete githubRepos repo res).1, r.id ≠ repo) ∧
    (∀ r ∈ githubRepos, (handleRepoDelete githubRepos repo res).1.count r =
      if r.id = repo then 0 else githubRepos.count r) := by
  unfold handleRepoDelete
  rw [if_pos h]
  refine ⟨List.filter_sublist _, fun r hr => ?_, fun r _ => ?_⟩
  · have := (List.mem_filter.mp hr).2
    simpa using this
  · by_cases hid : r.id = repo
    · rw [if_pos hid]
      refine List.count_eq_zero.mpr fun hmem => ?_
      have := (List.mem_filter.mp hmem).2
      simp [hid] at this
    · rw [if_neg hid]
      exact List.count_filter (by simpa using hid)

/-- C4 witness: deleting identifier "dup" from the sample list. -/
theorem delete_removes_witness :
    List.Sublist (handleRepoDelete sampleRepos "dup" ⟨200, none⟩).1 sampleRepos ∧
    (∀ r ∈ (handleRepoDelete sampleRepos "dup" ⟨200, none⟩).1, r.id ≠ "dup") ∧
    (∀ r ∈ sampleRepos, (handleRepoDelete sampleRepos "dup" ⟨200, none⟩).1.count r =
      if r.id = "dup" then 0 else sampleRepos.count r) :=
  delete_removes_exactly_matching sampleRepos "dup" ⟨200, none⟩ rfl

/-- C8: a deletion that receives a non-200 response surfaces an error toast
and leaves the held list of linked repositories exactly as it was. -/
theorem delete_error_preserves_list
    (githubRepos : List GithubRepo) (repo : String) (res : DeleteResponse)
    (h : res.statusCode ≠ 200) :
    (handleRepoDelete githubRepos repo res).1 = githubRepos ∧
    (handleRepoDelete githubRepos repo res).2 =
      [Toast.error ("Failed to delete repository  " ++ res.message.getD "undefined")] := by
  unfold handleRepoDelete
  rw [if_neg h]
  exact ⟨rfl, rfl⟩

/-- C8 witness: a concrete 500 response. -/
theorem delete_error_witness :
    (handleRepoDelete sampleRepos "dup" ⟨500, some "nope"⟩).1 = sampleRepos ∧
    (handleRepoDelete sampleRepos "dup" ⟨500, some "nope"⟩).2 =
      [Toast.error ("Failed to delete repository  " ++ "nope")] :=
  delete_error_preserves_list sampleRepos "dup" ⟨500, some "nope"⟩ (by decide)

/-- C2 counterexample: on the list `["https://github.com/org/repo", ""]`
every non-empty entry is a syntactically valid absolute URL and the list is
non-empty, yet the submit action is disabled, because the source validates
every entry including empty ones.  This refutes the claimed equivalence. -/
theorem submit_iff_nonempty_entries_valid_counterexample :
    (∀ r ∈ ["https://github.com/org/repo", ""], r ≠ "" → isURL r = true) ∧
    (["https://github.com/org/repo", ""] ≠ ([] : List String)) ∧
    submitEnabled ["https://github.com/org/repo", ""] = false := by
  decide

/-- C2 as amended: the submit action is enabled iff the entry list is
non-empty and every entry, empty entries included, passes the URL check (so
any empty entry disables submission); and with an empty entry list the
submit button is not even rendered, so submission is never possible. -/
theorem submit_enabled_iff_nonempty_and_all_valid :
    (∀ newRepos : List String,
      submitEnabled newRepos = true ↔
        (newRepos ≠ [] ∧ ∀ r ∈ newRepos, isURL r = true)) ∧
    submitShown [] = false := by
  refine ⟨fun newRepos => ?_, rfl⟩
  simp [submitEnabled, submitShown, isValid, List.all_eq_true, List.length_pos]

/-- C2 witness: the amended equivalence at a concrete single-entry list. -/
theorem submit_enabled_iff_witness :
    submitEnabled ["https://github.com/org/repo"] = true ↔
      (["https://github.com/org/repo"] ≠ ([] : List String) ∧
        ∀ r ∈ ["https://github.com/org/repo"], isURL r = true) :=
  submit_enabled_iff_nonempty_and_all_valid.1 ["https://github.com/org/repo"]

/-- `abortFetch` leaves every other fetch record untouched. -/
theorem abortFetch_get_other (fs : List FetchRec) (p id : Nat) (h : id ≠ p) :
    (abortFetch fs p)[id]? = fs[id]? := by
  unfold abortFetch
  cases hp : fs[p]? with
  | none => rfl
  | some f => exact List.getElem?_set_ne (Ne.symm h)

/-- `abortFetch` marks the targeted fetch record as aborted. -/
theorem abortFetch_get_same (fs : List FetchRec) (p : Nat) (f : FetchRec)
    (h : fs[p]? = some f) :
    (abortFetch fs p)[p]? = some { f with aborted := true } := by
  unfold abortFetch
  rw [h]
  exact List.getElem?_set_eq_of_lt _ (List.getElem?_eq_some.mp h).1

/-- Responding to an unknown fetch changes nothing. -/
theorem applyRespond_none {s : ConcState} {id : Nat} (resp : List HackathonTeam)
    (h : s.fetches[id]? = none) : applyRespond s id resp = s := by
  simp only [applyRespond, h]

/-- Responding a second time changes nothing. -/
theorem applyRespond_delivered {s : ConcState} {id : Nat} {f : FetchRec}
    (resp : List HackathonTeam) (h : s.fetches[id]? = some f)
    (hd : f.delivered = true) : applyRespond s id resp = s := by
  simp only [applyRespond, h, hd, if_true]

/-- The response of an aborted fetch is discarded: only the bookkeeping that
it was delivered changes, the held list does not. -/
theorem applyRespond_aborted {s : ConcState} {id : Nat} {f : FetchRec}
    (resp : List HackathonTeam) (h : s.fetches[id]? = some f)
    (hd : f.delivered = false) (ha : f.aborted = true) :
    applyRespond s id resp =
      { s with fetches := s.fetches.set id { f with delivered := true } } := by
  simp only [applyRespond, h, hd, ha, Bool.false_eq_true, if_false, if_true]

/-- A live filter-effect fetch replaces the held list with its payload. -/
theorem applyRespond_live_filter {s : ConcState} {id : Nat} {f : FetchRec}
    (resp : List HackathonTeam) (h : s.fetches[id]? = some f)
    (hd : f.delivered = false) (ha : f.aborted = false)
    (hk : f.kind = FetchKind.filterFetch) :
    applyRespond s id resp =
      { teams := resp,
        fetches := s.fetches.set id { f with delivered := true },
        pendingFilter := if s.pendingFilter = some id then none else s.pendingFilter } := by
  simp only [applyRespond, h, hd, ha, hk, Bool.false_eq_true, if_false]

/-- A live scroll fetch writes its captured closure list plus its payload. -/
theorem applyRespond_live_scroll {s : ConcState} {id : Nat} {f : FetchRec}
    (resp : List HackathonTeam) (h : s.fetches[id]? = some f)
    (hd : f.delivered = false) (ha : f.aborted = false)
    (hk : f.kind = FetchKind.scrollFetch) :
    applyRespond s id resp =
      { s with teams := f.closureTeams ++ resp,
               fetches := s.fetches.set id { f with delivered := true } } := by
  simp only [applyRespond, h, hd, ha, hk, Bool.false_eq_true, if_false]

/-- The filter-change step preserves the cancellation property: whatever was
pending is aborted by the cleanup, and the fresh fetch becomes pending. -/
theorem cinv_filterChange {s : ConcState} (ih : CancelInv s) :
    CancelInv (applyFilterChange s) := by
  intro id f hget hkind hpend hdel
  unfold applyFilterChange at hget hpend
  set fs0 := (match s.pendingFilter with
    | some p => abortFetch s.fetches p
    | none => s.fetches) with hfs0
  simp only at hget hpend
  have hne : id ≠ fs0.length := fun he => hpend (by rw [he])
  have hlen : id < fs0.length + 1 := by
    by_contra hno
    rw [List.getElem?_eq_none (by simp; omega)] at hget
    cases hget
  have hlt : id < fs0.length := by omega
  rw [List.getElem?_append_left hlt] at hget
  cases hpf : s.pendingFilter with
  | none =>
    rw [hpf] at hfs0
    simp only [hfs0] at hget
    exact ih id f hget hkind (by rw [hpf]; exact fun he => Option.noConfusion he) hdel
  | some p =>
    rw [hpf] at hfs0
    simp only [hfs0] at hget
    by_cases hip : id = p
    · subst hip
      cases hsp : s.fetches[id]? with
      | none => rw [abortFetch, hsp] at hget; rw [hsp] at hget; cases hget
      | some g =>
        rw [abortFetch_get_same s.fetches id g hsp] at hget
        cases hget
        rfl
    · rw [abortFetch_get_other s.fetches p id hip] at hget
      exact ih id f hget hkind (by rw [hpf]; exact fun he => hip (Option.some.inj he).symm) hdel

/-- The scroll-issue step preserves the cancellation property: the fresh
fetch is a scroll fetch, which the property does not cover. -/
theorem cinv_scrollIssue {s : ConcState} (ih : CancelInv s) :
    CancelInv (applyScrollIssue s) := by
  intro id f hget hkind hpend hdel
  unfold applyScrollIssue at hget hpend
  simp only at hget hpend
  rcases Nat.lt_or_ge id s.fetches.length with hlt | hge
  · rw [List.getElem?_append_left hlt] at hget
    exact ih id f hget hkind hpend hdel
  · rcases Nat.lt_or_ge id (s.fetches.length + 1) with h2 | h2
    · have : id = s.fetches.length := Nat.le_antisymm (Nat.le_of_lt_succ h2) hge
      subst this
      rw [List.getElem?_concat_length] at hget
      cases hget
      cases hkind
    · rw [List.getElem?_eq_none (by simpa using h2)] at hget
      cases hget

/-- Marking a fetch as delivered preserves the cancellation property,
provided the pending pointer only moved away from other fetches. -/
theorem cinv_set_delivered {s : ConcState} (id0 : Nat) (g : FetchRec)
    (h0 : s.fetches[id0]? = some g) (ih : CancelInv s)
    {t : ConcState}
    (hfet : t.fetches = s.fetches.set id0 { g with delivered := true })
    (hpf : ∀ id, id ≠ id0 → t.pendingFilter ≠ some id → s.pendingFilter ≠ some id) :
    CancelInv t := by
  intro id f hget hkind hpend hdel
  rw [hfet] at hget
  by_cases hii : id = id0
  · subst hii
    rw [List.getElem?_set_eq_of_lt _ (List.getElem?_eq_some.mp h0).1] at hget
    cases hget
    cases hdel
  · rw [List.getElem?_set_ne (Ne.symm hii)] at hget
    exact ih id f hget hkind (hpf id hii hpend) hdel

/-- The respond step preserves the cancellation property. -/
theorem cinv_respond {s : ConcState} (id0 : Nat) (resp : List HackathonTeam)
    (ih : CancelInv s) : CancelInv (applyRespond s id0 resp) := by
  cases h0 : s.fetches[id0]? with
  | none => rw [applyRespond_none resp h0]; exact ih
  | some g =>
    by_cases hd : g.delivered = true
    · rw [applyRespond_delivered resp h0 hd]; exact ih
    · have hd' : g.delivered = false := by
        cases hgd : g.delivered
        · rfl
        · exact absurd hgd hd
      by_cases ha : g.aborted = true
      · rw [applyRespond_aborted resp h0 hd' ha]
        exact cinv_set_delivered id0 g h0 ih rfl (fun id _ hp => hp)
      · have ha' : g.aborted = false := by
          cases hga : g.aborted
          · rfl
          · exact absurd hga ha
        cases hk : g.kind with
        | filterFetch =>
          rw [applyRespond_live_filter resp h0 hd' ha' hk]
          refine cinv_set_delivered id0 g h0 ih rfl ?_
          intro id hii hpend
          by_cases hpi : s.pendingFilter = some id0
          · rw [hpi]
            exact fun he => hii (Option.some.inj he).symm
          · rw [if_neg hpi] at hpend
            exact hpend
        | scrollFetch =>
          rw [applyRespond_live_scroll resp h0 hd' ha' hk]
          exact cinv_set_delivered id0 g h0 ih rfl (fun id _ hp => hp)

/-- Every reachable state satisfies the cancellation property. -/
theorem creach_cancel_invariant {s : ConcState} (h : CReach s) : CancelInv s := by
  induction h with
  | init => intro id f hget _ _ _; simp [cInit] at hget
  | step e hr ih =>
    cases e with
    | filterChange => exact cinv_filterChange ih
    | scrollIssue => exact cinv_scrollIssue ih
    | respond id0 resp => exact cinv_respond id0 resp ih

/-- C6 counterexample: on the trace `staleTrace`, after the superseding
filter change the scroll fetch (fetch 1) is still in flight and was never
aborted — `InfiniteScroll` passes it no controller, so the cleanup cannot
cancel it; the newer filter combination then produces the held list
`[teamB]`, and the stale scroll response finally runs the append branch with
its captured pre-reset closure list, overwriting the newer list with
`[teamA, teamC]`.  This refutes the claim that a superseding fetch cancels
every prior in-flight request, so that a stale response never overwrites. -/
theorem stale_scroll_response_overwrites_counterexample :
    (runTrace (staleTrace.take 4)).fetches[1]? =
      some ⟨FetchKind.scrollFetch, [teamA], false, false⟩ ∧
    (runTrace (staleTrace.take 5)).teams = [teamB] ∧
    (runTrace staleTrace).teams = [teamA, teamC] ∧
    [teamA, teamC] ≠ [teamB] := by
  refine ⟨rfl, rfl, rfl, ?_⟩
  decide

/-- C6 as amended: only the filter-effect fetch carries an abort controller,
and for it the guarantee holds — on every reachable state, an issued
filter-effect fetch that was superseded (it is no longer the one whose
controller the current cleanup holds) and whose response is still pending
was cancelled, and the delivery of its stale response leaves the held teams
list unchanged.  Scroll fetches have no such guarantee, as the
counterexample shows. -/
theorem stale_filter_response_never_overwrites
    {s : ConcState} (hr : CReach s) (id : Nat) (f : FetchRec)
    (resp : List HackathonTeam)
    (hf : s.fetches[id]? = some f) (hkind : f.kind = FetchKind.filterFetch)
    (hstale : s.pendingFilter ≠ some id) (hnd : f.delivered = false) :
    f.aborted = true ∧ (cstep (CEvt.respond id resp) s).teams = s.teams := by
  have hab : f.aborted = true := creach_cancel_invariant hr id f hf hkind hstale hnd
  refine ⟨hab, ?_⟩
  show (applyRespond s id resp).teams = s.teams
  rw [applyRespond_aborted resp hf hnd hab]

/-- C6 witness: after two filter changes, the superseded filter fetch 0 is
aborted and delivering its response cannot change the held list. -/
theorem stale_filter_response_witness :
    (⟨FetchKind.filterFetch, [], true, false⟩ : FetchRec).aborted = true ∧
    (cstep (CEvt.respond 0 [teamC]) twoFilterChanges).teams = twoFilterChanges.teams :=
  stale_filter_response_never_overwrites
    (CReach.step CEvt.filterChange (CReach.step CEvt.filterChange CReach.init))
    0 ⟨FetchKind.filterFetch, [], true, false⟩ [teamC] (by decide) rfl (by decide) rfl

end Hackathons
